import Mathlib

/-!
Shallow embedding of the GCP-GPT repository (app.py, inventory.py,
GCP_GPT_Assistant.py): the ingestion-ledger management, the latest-snapshot
selection and Start-Ingestion handler, the index bootstrap retry loop, and the
retrieval-augmented query flow.  External services (object store, vector index,
embedding and completion services, document loader) appear as explicit
parameters describing the outcome of each remote call; everything else is
translated directly from the Python source.
-/

namespace GcpGpt

/-! ## String helpers mirroring the Python primitives used by the scripts -/

/-- Is the first character list a leading segment of the second?
Backs the Python `str.startswith` / `str.endswith` checks. -/
def charsPre : List Char → List Char → Bool
  | [], _ => true
  | _ :: _, [] => false
  | p :: ps, c :: cs => p == c && charsPre ps cs

/-- Python `s.startswith(p)`. -/
def pyStarts (s p : String) : Bool := charsPre p.data s.data

/-- Python `s.endswith(p)`. -/
def pyEnds (s p : String) : Bool := charsPre p.data.reverse s.data.reverse

/-- Does `pat` occur as a contiguous substring?  Backs Python `pat in s`. -/
def charsContains (pat : List Char) : List Char → Bool
  | [] => charsPre pat []
  | c :: cs => charsPre pat (c :: cs) || charsContains pat cs

/-- Python `pat in s` for strings. -/
def pyContains (s pat : String) : Bool := charsContains pat.data s.data

/-- Split a character list at every occurrence of the separator character,
accumulating the current fragment in reverse. -/
def splitCharAux (sep : Char) : List Char → List Char → List String
  | [], acc => [String.mk acc.reverse]
  | c :: cs, acc =>
    if c = sep then String.mk acc.reverse :: splitCharAux sep cs []
    else splitCharAux sep cs (c :: acc)

/-- Python `s.split(sep)` for a one-character separator. -/
def splitChar (sep : Char) (s : String) : List String := splitCharAux sep s.data []

/-- Python `report.split("\n")`. -/
def splitLines (s : String) : List String := splitChar '\n' s

/-- Python `os.path.basename`: the part of the key after the final slash. -/
def basename (s : String) : String := (splitChar '/' s).getLastD s

/-- Lexicographic comparison of character lists by code point: the order Python
uses when sorting the ledger keys.  (A structural twin of `String` `≤`; the two
are proved to agree below.) -/
def charsLe : List Char → List Char → Bool
  | [], _ => true
  | _ :: _, [] => false
  | a :: as, b :: bs => if a < b then true else if b < a then false else charsLe as bs

/-! ## Ingestion ledger -/

/-- The persisted ingestion ledger: a JSON object mapping source-file name to
the vector-index name it was loaded into.  Modelled as an association list with
Python-dict semantics (unique keys, insertion order). -/
abbrev Ledger := List (String × String)

/-- Python dict assignment `d[k] = v`: overwrite in place when the key exists,
append a new binding otherwise. -/
def dictInsert (k v : String) : Ledger → Ledger
  | [] => [(k, v)]
  | (k2, v2) :: rest => if k2 = k then (k2, v) :: rest else (k2, v2) :: dictInsert k v rest

/-- Outcome of fetching the ledger object from the object store.  boto3 raises
`ClientError` for every error response of the store (object not found, access
denied, ...); failures outside that class (network drop, parse error) are a
separate constructor. -/
inductive FetchError where
  | clientError (code : String)
  | otherFailure (msg : String)
  deriving DecidableEq, Repr

/-- The function `load_ingestion_log` (app.py lines 35-42, inventory.py lines 28-35): try to
download and parse the ledger; `except s3.exceptions.ClientError: return {}`.
The parameter is the outcome of the store fetch. -/
def load_ingestion_log (fetch : Except FetchError Ledger) : Except FetchError Ledger :=
  match fetch with
  | Except.ok l => Except.ok l
  | Except.error (FetchError.clientError _) => Except.ok []
  | Except.error e => Except.error e

/-- The function `get_latest_index_from_s3_log` (GCP_GPT_Assistant.py lines 29-44, app.py
lines 50-62): download the ledger, raise if it is empty, take
`sorted(ingestion_log.keys(), reverse=True)[0]` and return its recorded index
name; every exception is caught and turned into `None`. -/
def get_latest_index_from_s3_log (fetch : Except FetchError Ledger) : Option String :=
  match fetch with
  | Except.error _ => none
  | Except.ok log =>
    match ((log.map Prod.fst).insertionSort (fun a b => charsLe b.data a.data = true)).head? with
    | none => none
    | some latest => List.lookup latest log

/-! ## Snapshot listing and the Start-Ingestion handler -/

/-- One entry of the `list_objects_v2` response: key and last-modified stamp. -/
structure S3Obj where
  key : String
  lastModified : Nat
  deriving DecidableEq, Repr

/-- The fixed ledger key `copilot/ingestion_log.json`. -/
def log_key : String := "copilot/ingestion_log.json"

/-- The filter inside `json_files` (app.py line 124, inventory.py line 108):
keep objects whose key ends with ".json" and does not contain "ingestion_log". -/
def isCandidate (o : S3Obj) : Bool :=
  pyEnds o.key ".json" && !(pyContains o.key "ingestion_log")

/-- The listing `json_files` (app.py lines 122-127, inventory.py lines 106-111): the
filtered listing, stably sorted by `LastModified` descending (Python `sorted`
with `reverse=True`). -/
def json_files (objs : List S3Obj) : List S3Obj :=
  (objs.filter isCandidate).insertionSort (fun a b => b.lastModified ≤ a.lastModified)

/-- The selection `json_files[0]` when the candidate list is non-empty: the snapshot the
orchestrator treats as latest. -/
def latest_file (objs : List S3Obj) : Option S3Obj := (json_files objs).head?

/-- Observable effects of one run of the Start-Ingestion handler. -/
structure IngestOutcome where
  loaderConstructed : Bool
  saveCalls : List Ledger
  deleteCalls : List String
  reportedIndex : Option String
  finalLedger : Ledger
  errorShown : Bool
  deriving DecidableEq, Repr

/-- The Start-Ingestion handler (app.py lines 132-158, inventory.py lines
116-153): pick the latest candidate; if its base name is a ledger key, report
the recorded index and stop; otherwise, given an index name, download the
snapshot, construct the loader and run `load_and_index`, and only on success
record the file in the ledger, save the ledger, and delete the snapshot.  Any
exception in the `try` block is caught and shown as an error.  `downloadOk` and
`loaderOk` are the outcomes of the two fallible external steps. -/
def start_ingestion (ledger : Ledger) (objs : List S3Obj) (index_name : Option String)
    (downloadOk : Bool) (loaderOk : Bool) : IngestOutcome :=
  match latest_file objs with
  | none => ⟨false, [], [], none, ledger, false⟩
  | some latest =>
    match List.lookup (basename latest.key) ledger with
    | some idx => ⟨false, [], [], some idx, ledger, false⟩
    | none =>
      match index_name with
      | none => ⟨false, [], [], none, ledger, false⟩
      | some idx =>
        if downloadOk = false then ⟨false, [], [], none, ledger, true⟩
        else if loaderOk = false then ⟨true, [], [], none, ledger, true⟩
        else
          ⟨true, [dictInsert (basename latest.key) idx ledger], [latest.key],
            some idx, dictInsert (basename latest.key) idx ledger, false⟩

/-! ## Index bootstrap -/

/-- Loop body of `create_index_with_retry` (GCP_GPT_Assistant.py lines 56-72):
`rem` iterations of `for attempt in range(retries)` remain; `calls` counts
`pc.create_index` calls issued so far.  Each attempt re-checks the listing;
a create failure sleeps and retries while `attempt < retries - 1`, and on the
final attempt shows an error and returns `False`. -/
def retryGo (listing : List String) (index_name : String) (createOk : Nat → Bool)
    (retries : Nat) : Nat → Nat → Nat → Bool × Nat
  | 0, _, calls => (false, calls)
  | rem + 1, attempt, calls =>
    if listing.contains index_name then (true, calls)
    else if createOk attempt then (true, calls + 1)
    else if attempt < retries - 1 then
      retryGo listing index_name createOk retries rem (attempt + 1) (calls + 1)
    else (false, calls + 1)

/-- The function `create_index_with_retry`: returns the truthiness of the Python result
(`True` on success, `False`/`None` on failure) together with the number of
create calls issued.  `createOk i` is whether the create call of attempt `i`
succeeds; `listing` is the index listing of the service. -/
def create_index_with_retry (listing : List String) (index_name : String)
    (createOk : Nat → Bool) (retries : Nat) : Bool × Nat :=
  retryGo listing index_name createOk retries retries 0 0

/-- Whether the QnA page of GCP_GPT_Assistant.py ends up issuing a
vector-index query call: `st.stop()` when no index name comes from the ledger
(lines 47-49); the result of `create_index_with_retry` is discarded by the
module (line 74), so `bootstrapOk` is dead, exactly as in the source; a query
is issued when the form is submitted with a non-blank question (line 244) and
the embedding call succeeds (`search_index` returns early on a failed
embedding, lines 95-98). -/
def qna_issues_index_query (indexFromLog : Option String) (bootstrapOk : Bool)
    (submitted : Bool) (questionNonblank : Bool) (embedOk : Bool) : Bool :=
  match indexFromLog with
  | none => false
  | some _ => submitted && questionNonblank && embedOk

/-! ## Retrieval-augmented query flow -/

/-- One match of a vector-index query response: an identifier and a metadata
dictionary. -/
structure MatchRec where
  id : String
  metadata : List (String × String)
  deriving DecidableEq, Repr

/-- The `content` metadata field of a match, when present. -/
def MatchRec.content (m : MatchRec) : Option String := List.lookup "content" m.metadata

/-- Loop body of `retrieve_documents` (GCP_GPT_Assistant.py lines 114-119):
append the content of each match, or (on `KeyError`) report a warning naming
the match id.  Returns the documents and the ids warned about, in order. -/
def collectDocs : List MatchRec → List String × List String
  | [] => ([], [])
  | r :: rest =>
    match MatchRec.content r with
    | some c => (c :: (collectDocs rest).1, (collectDocs rest).2)
    | none => ((collectDocs rest).1, r.id :: (collectDocs rest).2)

/-- The method `PenTestVAPTAssistant.retrieve_documents` (GCP_GPT_Assistant.py lines
110-119): empty on a missing/falsy query result, else process
the first `max_docs` entries of the `matches` field of the query result. -/
def retrieve_documents (query_result : Option (List MatchRec)) (max_docs : Nat) :
    List String × List String :=
  match query_result with
  | none => ([], [])
  | some ms => collectDocs (ms.take max_docs)

/-- The list comprehension of app.py line 195: pulling a missing `content`
field raises `KeyError` and aborts the whole extraction. -/
def appCollect : List MatchRec → Except String (List String)
  | [] => Except.ok []
  | r :: rest =>
    match MatchRec.content r with
    | none => Except.error r.id
    | some c =>
      match appCollect rest with
      | Except.ok docs => Except.ok (c :: docs)
      | Except.error e => Except.error e

/-- The method `PenTestVAPTAssistant.retrieve_documents` of app.py (lines 194-195):
the one-line comprehension over the first `max_docs` matches, pulling the `content` metadata field of each. -/
def app_retrieve_documents (query_result : Option (List MatchRec)) (max_docs : Nat) :
    Except String (List String) :=
  appCollect ((query_result.getD []).take max_docs)

/-- The method `PenTestVAPTAssistant.extract_references` (GCP_GPT_Assistant.py lines
198-199): the lines of the report that start with the literal "Reference:". -/
def extract_references (report : String) : List String :=
  (splitLines report).filter (fun line => pyStarts line "Reference:")

/-- Observable outcome of one `PenTestVAPTAssistant.query` run: the report (if
any), the extracted references, the number of completion-service calls issued,
and whether the "No relevant documents found." warning was shown. -/
structure QueryOutcome where
  report : Option String
  references : List String
  llmCalls : Nat
  noDocsWarning : Bool
  deriving DecidableEq, Repr

/-- The method `PenTestVAPTAssistant.query` of GCP_GPT_Assistant.py (lines 201-209):
return `(None, [])` on a failed search, warn and return `(None, [])` with no
completion call when no documents were extracted, otherwise run
`generate_report`, which issues exactly one completion call and on its failure
returns `(None, [])`.  `searchResult` is the `search_index` outcome and
`completion` the completion-service outcome. -/
def assistant_query (searchResult : Option (List MatchRec)) (completion : Option String) :
    QueryOutcome :=
  match searchResult with
  | none => ⟨none, [], 0, false⟩
  | some ms =>
    if ((retrieve_documents (some ms) 3).1).isEmpty then ⟨none, [], 0, true⟩
    else
      match completion with
      | some rep => ⟨some rep, extract_references rep, 1, false⟩
      | none => ⟨none, [], 1, false⟩

/-- The method `PenTestVAPTAssistant.query` of app.py (lines 205-208): return the report
from one completion call, or the literal "No relevant data found." with no
completion call when no documents were extracted; paired with the number of
completion calls.  A `KeyError` from document extraction propagates. -/
def app_assistant_query (ms : List MatchRec) (completion : String) :
    Except String (String × Nat) :=
  match app_retrieve_documents (some ms) 3 with
  | Except.error e => Except.error e
  | Except.ok docs =>
    if docs.isEmpty then Except.ok ("No relevant data found.", 0)
    else Except.ok (completion, 1)

/-! ## General lemmas -/

/-- The comparison `charsLe` agrees with the negation of the strict lexicographic order on
character lists. -/
theorem charsLe_iff_not_lex :
    ∀ s t : List Char, charsLe s t = true ↔ ¬ List.Lex (· < ·) t s
  | [], t => ⟨fun _ => List.Lex.not_nil_right _ _, fun _ => rfl⟩
  | a :: as, [] => by
    simp only [charsLe]
    exact iff_of_false (by simp) (not_not_intro List.Lex.nil)
  | a :: as, b :: bs => by
    by_cases hab : a < b
    · simp only [charsLe, if_pos hab]
      refine iff_of_true trivial ?_
      intro h
      cases h with
      | cons h2 => exact lt_irrefl a hab
      | rel h2 => exact lt_irrefl a (hab.trans h2)
    · by_cases hba : b < a
      · simp only [charsLe, if_neg hab, if_pos hba]
        exact iff_of_false (by simp) (not_not_intro (List.Lex.rel hba))
      · have hEq : a = b := le_antisymm (not_lt.mp hba) (not_lt.mp hab)
        subst hEq
        simp only [charsLe, if_neg hab]
        rw [List.Lex.cons_iff]
        exact charsLe_iff_not_lex as bs

/-- The comparison `charsLe` on the character data is exactly `String` `≤`. -/
theorem le_iff_charsLe (s t : String) : s ≤ t ↔ charsLe s.data t.data = true := by
  rw [charsLe_iff_not_lex, String.le_iff_toList_le, ← not_lt]
  exact Iff.rfl

/-- The head of a stable insertion sort by a total transitive relation is
related to every element of the input list. -/
theorem head_insertionSort_rel {α : Type} (r : α → α → Prop) [DecidableRel r]
    (total : ∀ a b, r a b ∨ r b a) (htrans : ∀ a b c, r a b → r b c → r a c)
    (l : List α) (hne : l ≠ []) :
    ∃ m, (l.insertionSort r).head? = some m ∧ m ∈ l ∧ ∀ x ∈ l, r m x := by
  haveI : IsTotal α r := ⟨total⟩
  haveI : IsTrans α r := ⟨fun a b c => htrans a b c⟩
  have hperm := List.perm_insertionSort r l
  have hsorted := List.sorted_insertionSort r l
  cases hs : l.insertionSort r with
  | nil =>
    rw [hs] at hperm
    exact absurd hperm.symm.eq_nil hne
  | cons m t =>
    rw [hs] at hperm hsorted
    refine ⟨m, rfl, hperm.subset (List.mem_cons_self m t), ?_⟩
    intro x hx
    have hx2 : x ∈ m :: t := hperm.symm.subset hx
    rcases List.mem_cons.mp hx2 with h | h
    · subst h
      exact (total x x).elim id id
    · exact List.rel_of_sorted_cons hsorted x h

/-! ## Claim theorems -/

/-- Claim C4 (corrected): `load()` treats a missing ledger object as the empty
mapping, but it converts *every* store-client error — not only "object not
found" — to the empty mapping; only failures outside the client-error class
are surfaced to the caller. -/
theorem load_ingestion_log_error_behavior :
    (∀ code, load_ingestion_log (Except.error (FetchError.clientError code)) =
      Except.ok []) ∧
    (∀ msg, load_ingestion_log (Except.error (FetchError.otherFailure msg)) =
      Except.error (FetchError.otherFailure msg)) ∧
    (∀ l, load_ingestion_log (Except.ok l) = Except.ok l) :=
  ⟨fun _ => rfl, fun _ => rfl, fun _ => rfl⟩

/-- Claim C4 counterexample: an access-denied store response is a fetch failure
that is not "object not found", yet `load()` returns the empty mapping for it
instead of surfacing it to the caller. -/
theorem load_ingestion_log_access_denied_swallowed :
    load_ingestion_log (Except.error (FetchError.clientError "AccessDenied")) =
      Except.ok ([] : Ledger) ∧
    load_ingestion_log (Except.error (FetchError.clientError "AccessDenied")) ≠
      Except.error (FetchError.clientError "AccessDenied") :=
  ⟨rfl, fun h => Except.noConfusion h⟩

/-- Claim C6 (confirmed): reference extraction returns exactly the lines that
begin with the literal prefix "Reference:", in their original order: on
"line1\nReference: A\nsomething\nReference: B" it yields exactly
["Reference: A", "Reference: B"]; on input with no such line it yields []; and
in general it is an order-preserving sublist of the report lines, each member
starting with "Reference:". -/
theorem extract_references_spec :
    extract_references "line1\nReference: A\nsomething\nReference: B" =
      ["Reference: A", "Reference: B"] ∧
    (∀ report, (∀ line ∈ splitLines report, pyStarts line "Reference:" = false) →
      extract_references report = []) ∧
    (∀ report, (extract_references report).Sublist (splitLines report) ∧
      ∀ line ∈ extract_references report, pyStarts line "Reference:" = true) := by
  refine ⟨by decide, ?_, ?_⟩
  · intro report h
    exact List.filter_eq_nil_iff.mpr (fun line hl => by simp [h line hl])
  · intro report
    refine ⟨List.filter_sublist _, ?_⟩
    intro line hl
    simp only [extract_references] at hl
    exact (List.mem_filter.mp hl).2

/-- Claim C6 witness: the no-reference branch of `extract_references_spec` at a
concrete report. -/
theorem extract_references_spec_witness :
    extract_references "alpha\nbeta" = [] :=
  extract_references_spec.2.1 "alpha\nbeta" (by decide)

/-- The helper `collectDocs` pulls the `content` of each match in input order and warns
(by id) about exactly the matches missing it. -/
theorem collectDocs_eq (l : List MatchRec) :
    collectDocs l = (l.filterMap MatchRec.content,
      (l.filter (fun r => (MatchRec.content r).isNone)).map MatchRec.id) := by
  induction l with
  | nil => rfl
  | cons r rest ih =>
    cases h : MatchRec.content r with
    | some c => simp [collectDocs, h, ih, List.filterMap_cons, List.filter_cons]
    | none => simp [collectDocs, h, ih, List.filterMap_cons, List.filter_cons]

/-- The helper `appCollect` succeeds with the contents in order when every match carries
a `content` field. -/
theorem appCollect_all_content (l : List MatchRec)
    (h : ∀ r ∈ l, (MatchRec.content r).isSome = true) :
    appCollect l = Except.ok (l.filterMap MatchRec.content) := by
  induction l with
  | nil => rfl
  | cons r rest ih =>
    rcases Option.isSome_iff_exists.mp (h r (List.mem_cons_self r rest)) with ⟨c, hc⟩
    simp [appCollect, hc, ih (fun x hx => h x (List.mem_cons_of_mem _ hx)),
      List.filterMap_cons]

/-- The helper `appCollect` aborts with an error as soon as a match lacks `content`. -/
theorem appCollect_missing_content (l : List MatchRec)
    (h : ∃ r ∈ l, MatchRec.content r = none) :
    ∃ i, appCollect l = Except.error i := by
  induction l with
  | nil => simp at h
  | cons r rest ih =>
    cases hc : MatchRec.content r with
    | none => exact ⟨r.id, by simp [appCollect, hc]⟩
    | some c =>
      rcases h with ⟨r2, hr2, h2⟩
      rcases List.mem_cons.mp hr2 with hEq | hmem
      · rw [hEq, hc] at h2
        exact absurd h2 (by simp)
      · rcases ih ⟨r2, hmem, h2⟩ with ⟨i, hi⟩
        exact ⟨i, by simp [appCollect, hc, hi]⟩

/-- Claim C7 (corrected): both copies of document extraction take at most the
configured maximum of results in order and pull each `content` field, but only
the GCP_GPT_Assistant.py copy skips a result missing that field with a warning
naming its id; the app.py copy hard-fails there.  First conjunct: the
GCP_GPT_Assistant.py extraction (cap, order, skip-with-warning, total).
Second and third conjuncts: the app.py extraction caps and preserves order
when every taken result carries `content`, and aborts with an error when one
does not. -/
theorem retrieve_documents_spec :
    (∀ (ms : List MatchRec) (max_docs : Nat),
      (retrieve_documents (some ms) max_docs).1 =
        (ms.take max_docs).filterMap MatchRec.content ∧
      (retrieve_documents (some ms) max_docs).2 =
        ((ms.take max_docs).filter (fun r => (MatchRec.content r).isNone)).map
          MatchRec.id ∧
      (retrieve_documents (some ms) max_docs).1.length ≤ max_docs) ∧
    (∀ (ms : List MatchRec) (max_docs : Nat),
      (∀ r ∈ ms.take max_docs, (MatchRec.content r).isSome = true) →
      app_retrieve_documents (some ms) max_docs =
        Except.ok ((ms.take max_docs).filterMap MatchRec.content)) ∧
    (∀ (ms : List MatchRec) (max_docs : Nat),
      (∃ r ∈ ms.take max_docs, MatchRec.content r = none) →
      ∃ i, app_retrieve_documents (some ms) max_docs = Except.error i) := by
  refine ⟨?_, ?_, ?_⟩
  · intro ms max_docs
    rw [retrieve_documents, collectDocs_eq]
    refine ⟨rfl, rfl, ?_⟩
    calc ((ms.take max_docs).filterMap MatchRec.content).length
        ≤ (ms.take max_docs).length := List.length_filterMap_le _ _
      _ ≤ max_docs := List.length_take_le _ _
  · intro ms max_docs h
    rw [app_retrieve_documents]
    exact appCollect_all_content _ h
  · intro ms max_docs h
    rw [app_retrieve_documents]
    exact appCollect_missing_content _ h

/-- Claim C7 counterexample: on a single match without a `content` field, the
app.py extraction aborts with an error (a hard failure), while the
GCP_GPT_Assistant.py copy skips it with a warning. -/
theorem app_retrieve_documents_hard_failure :
    app_retrieve_documents (some [MatchRec.mk "doc1" []]) 3 = Except.error "doc1" ∧
    retrieve_documents (some [MatchRec.mk "doc1" []]) 3 = ([], ["doc1"]) :=
  ⟨rfl, rfl⟩

/-- Claim C7 witness: the app.py extraction branch at a concrete match list. -/
theorem retrieve_documents_spec_witness :
    app_retrieve_documents (some [MatchRec.mk "d1" [("content", "text-1")]]) 3 =
      Except.ok (([MatchRec.mk "d1" [("content", "text-1")]].take 3).filterMap
        MatchRec.content) :=
  retrieve_documents_spec.2.1 [MatchRec.mk "d1" [("content", "text-1")]] 3 (by decide)

/-- Claim C5 (confirmed): when document extraction yields an empty list, both
query implementations return the "no relevant documents" signal with zero
completion-service calls: the GCP_GPT_Assistant.py copy shows the
"No relevant documents found." warning and answers `(None, [])`; the app.py
copy answers the literal "No relevant data found.". -/
theorem query_no_docs_no_llm :
    (∀ (ms : List MatchRec) (completion : Option String),
      (retrieve_documents (some ms) 3).1 = [] →
      assistant_query (some ms) completion = ⟨none, [], 0, true⟩) ∧
    (∀ (ms : List MatchRec) (completion : String),
      app_retrieve_documents (some ms) 3 = Except.ok [] →
      app_assistant_query ms completion = Except.ok ("No relevant data found.", 0)) := by
  constructor
  · intro ms completion h
    simp [assistant_query, h]
  · intro ms completion h
    simp [app_assistant_query, h]

/-- Claim C5 witness: an empty match list yields the no-documents outcome with
zero completion calls. -/
theorem query_no_docs_no_llm_witness :
    assistant_query (some ([] : List MatchRec)) (some "unused-completion") =
      ⟨none, [], 0, true⟩ :=
  query_no_docs_no_llm.1 [] (some "unused-completion") (by decide)

/-- When the index is absent from the listing and every create attempt fails,
the remaining loop iterations each issue one failing create call and the loop
ends returning failure. -/
theorem retryGo_all_fail (listing : List String) (index_name : String)
    (createOk : Nat → Bool) (retries : Nat)
    (hmem : listing.contains index_name = false)
    (hfail : ∀ i, createOk i = false) :
    ∀ rem attempt calls, attempt + rem = retries → 1 ≤ rem →
      retryGo listing index_name createOk retries rem attempt calls =
        (false, calls + rem) := by
  intro rem
  induction rem with
  | zero =>
    intro attempt calls hsum h1
    exact absurd h1 (by omega)
  | succ n ih =>
    intro attempt calls hsum h1
    simp only [retryGo, hmem, hfail, Bool.false_eq_true, if_false]
    by_cases hn : 1 ≤ n
    · have hlt : attempt < retries - 1 := by omega
      rw [if_pos hlt, ih (attempt + 1) (calls + 1) (by omega) hn]
      refine congrArg _ ?_
      omega
    · have hn0 : n = 0 := by omega
      subst hn0
      have hge : ¬ attempt < retries - 1 := by omega
      rw [if_neg hge]

/-- Claim C8 (corrected): index bootstrap issues no create call when the name is
listed, exactly one when absent and the first create succeeds, and retries a
failing create up to the configured total of `retries` attempts before
returning a terminal failure — but the module discards the returned failure
flag (line 74), so the QnA flow still proceeds to query the index. -/
theorem create_index_with_retry_spec :
    (∀ (listing : List String) (index_name : String) (createOk : Nat → Bool)
        (retries : Nat), listing.contains index_name = true → 1 ≤ retries →
      create_index_with_retry listing index_name createOk retries = (true, 0)) ∧
    (∀ (listing : List String) (index_name : String) (createOk : Nat → Bool)
        (retries : Nat), listing.contains index_name = false → createOk 0 = true →
        1 ≤ retries →
      create_index_with_retry listing index_name createOk retries = (true, 1)) ∧
    (∀ (listing : List String) (index_name : String) (createOk : Nat → Bool)
        (retries : Nat), listing.contains index_name = false →
        (∀ i, createOk i = false) → 1 ≤ retries →
      create_index_with_retry listing index_name createOk retries = (false, retries)) ∧
    (∀ index_name, qna_issues_index_query (some index_name) false true true true = true) := by
  refine ⟨?_, ?_, ?_, fun _ => rfl⟩
  · intro listing index_name createOk retries hmem hr
    have hm : index_name ∈ listing := by simpa using hmem
    cases retries with
    | zero => exact absurd hr (by omega)
    | succ n => simp [create_index_with_retry, retryGo, hm]
  · intro listing index_name createOk retries hmem hok hr
    have hm : index_name ∉ listing := by simpa using hmem
    cases retries with
    | zero => exact absurd hr (by omega)
    | succ n => simp [create_index_with_retry, retryGo, hm, hok]
  · intro listing index_name createOk retries hmem hfail hr
    have := retryGo_all_fail listing index_name createOk retries hmem hfail
      retries 0 0 (by omega) hr
    rw [create_index_with_retry, this]
    refine congrArg _ ?_
    omega

/-- Claim C8 counterexample: with the target index absent and every create
attempt failing, bootstrap exhausts its three attempts and returns failure,
yet the QnA flow (which discards that result) still issues a query against the
index. -/
theorem bootstrap_failure_caller_still_queries :
    create_index_with_retry ["other-index"] "target-index" (fun _ => false) 3 =
      (false, 3) ∧
    qna_issues_index_query (some "target-index") false true true true = true :=
  ⟨by decide, rfl⟩

/-- Claim C8 witness: the already-listed branch at a concrete listing. -/
theorem create_index_with_retry_spec_witness :
    create_index_with_retry ["idx-a"] "idx-a" (fun _ => false) 3 = (true, 0) :=
  create_index_with_retry_spec.1 ["idx-a"] "idx-a" (fun _ => false) 3 (by decide)
    (by decide)

/-- Claim C1 (confirmed): a failing load/chunk/embed/upsert step aborts the run
with no ledger save, no snapshot delete and the ledger unchanged (first
conjunct, for every run configuration); and because nothing changed, a retried
run on the same state still reaches the save and the delete of the very same
snapshot (second conjunct). -/
theorem loader_failure_aborts :
    (∀ (ledger : Ledger) (objs : List S3Obj) (index_name : Option String)
        (downloadOk : Bool),
      (start_ingestion ledger objs index_name downloadOk false).saveCalls = [] ∧
      (start_ingestion ledger objs index_name downloadOk false).deleteCalls = [] ∧
      (start_ingestion ledger objs index_name downloadOk false).finalLedger = ledger) ∧
    (∀ (ledger : Ledger) (objs : List S3Obj) (latest : S3Obj) (idx : String),
      latest_file objs = some latest →
      List.lookup (basename latest.key) ledger = none →
      (start_ingestion ledger objs (some idx) true true).saveCalls =
        [dictInsert (basename latest.key) idx ledger] ∧
      (start_ingestion ledger objs (some idx) true true).deleteCalls =
        [latest.key]) := by
  constructor
  · intro ledger objs index_name downloadOk
    rcases h1 : latest_file objs with _ | latest
    · simp [start_ingestion, h1]
    · rcases h2 : List.lookup (basename latest.key) ledger with _ | idx0
      · rcases index_name with _ | idx
        · simp [start_ingestion, h1, h2]
        · cases downloadOk
          · simp [start_ingestion, h1, h2]
          · simp [start_ingestion, h1, h2]
      · simp [start_ingestion, h1, h2]
  · intro ledger objs latest idx h1 h2
    simp [start_ingestion, h1, h2]

/-- Claim C1 witness: a fresh ledger and one candidate snapshot; the retried run
saves the updated ledger and deletes that snapshot. -/
theorem loader_failure_aborts_witness :
    (start_ingestion [] [S3Obj.mk "copilot/gcp_inventory_20240101-000000.json" 7]
        (some "idx-new") true true).saveCalls =
      [dictInsert (basename "copilot/gcp_inventory_20240101-000000.json") "idx-new" []] ∧
    (start_ingestion [] [S3Obj.mk "copilot/gcp_inventory_20240101-000000.json" 7]
        (some "idx-new") true true).deleteCalls =
      ["copilot/gcp_inventory_20240101-000000.json"] :=
  loader_failure_aborts.2 [] [S3Obj.mk "copilot/gcp_inventory_20240101-000000.json" 7]
    (S3Obj.mk "copilot/gcp_inventory_20240101-000000.json" 7) "idx-new"
    (by decide) (by decide)

/-- Claim C2 (confirmed): when the base name of the latest file is already a ledger
key, the handler constructs no loader, saves nothing, deletes nothing, leaves
the ledger unchanged and surfaces exactly the recorded index name — whatever
index-name input and external outcomes the run was given. -/
theorem already_ingested_skips (ledger : Ledger) (objs : List S3Obj) (latest : S3Obj)
    (idx0 : String) (index_name : Option String) (downloadOk loaderOk : Bool)
    (h1 : latest_file objs = some latest)
    (h2 : List.lookup (basename latest.key) ledger = some idx0) :
    start_ingestion ledger objs index_name downloadOk loaderOk =
      ⟨false, [], [], some idx0, ledger, false⟩ := by
  simp [start_ingestion, h1, h2]

/-- Claim C2 witness: a ledger already holding the base name of the latest snapshot:
the run reports the recorded index "idx-old" untouched. -/
theorem already_ingested_skips_witness :
    start_ingestion [("gcp_inventory_1.json", "idx-old")]
        [S3Obj.mk "copilot/gcp_inventory_1.json" 3] (some "idx-new") true true =
      ⟨false, [], [], some "idx-old", [("gcp_inventory_1.json", "idx-old")], false⟩ :=
  already_ingested_skips [("gcp_inventory_1.json", "idx-old")]
    [S3Obj.mk "copilot/gcp_inventory_1.json" 3]
    (S3Obj.mk "copilot/gcp_inventory_1.json" 3) "idx-old" (some "idx-new") true true
    (by decide) (by decide)

/-- Claim C3 (confirmed): over candidate listings with pairwise-distinct
last-modified stamps, the orchestrator picks exactly the object with the
maximal stamp, and the pick is invariant under permutation of the listing. -/
theorem latest_file_selects_max (objs : List S3Obj)
    (hc : ∀ o ∈ objs, isCandidate o = true)
    (hd : objs.Pairwise (fun a b => a.lastModified ≠ b.lastModified))
    (hne : objs ≠ []) :
    ∃ m, latest_file objs = some m ∧ m ∈ objs ∧
      (∀ o ∈ objs, o ≠ m → o.lastModified < m.lastModified) ∧
      (∀ objs2, objs2.Perm objs → latest_file objs2 = some m) := by
  have key : ∀ l : List S3Obj, l ≠ [] → (∀ o ∈ l, isCandidate o = true) →
      ∃ m, latest_file l = some m ∧ m ∈ l ∧
        ∀ x ∈ l, x.lastModified ≤ m.lastModified := by
    intro l hl hcl
    have hfl : l.filter isCandidate = l := List.filter_eq_self.mpr hcl
    rcases head_insertionSort_rel (fun a b : S3Obj => b.lastModified ≤ a.lastModified)
        (fun a b => le_total b.lastModified a.lastModified)
        (fun a b c hab hbc => le_trans hbc hab) l hl with ⟨m, hm, hmem, hmax⟩
    refine ⟨m, ?_, hmem, hmax⟩
    rw [latest_file, json_files, hfl]
    exact hm
  have hdistinct : ∀ a ∈ objs, ∀ b ∈ objs,
      a.lastModified = b.lastModified → a = b := by
    intro a ha b hb hab
    by_contra hne2
    exact (hd.forall (fun x y h => h.symm) ha hb hne2) hab
  rcases key objs hne hc with ⟨m, hm, hmem, hmax⟩
  refine ⟨m, hm, hmem, ?_, ?_⟩
  · intro o ho honem
    exact lt_of_le_of_ne (hmax o ho)
      (fun hEq => honem (hdistinct o ho m hmem hEq))
  · intro objs2 hperm
    have hne2 : objs2 ≠ [] := by
      intro h0
      rw [h0] at hperm
      exact hne hperm.symm.eq_nil
    have hc2 : ∀ o ∈ objs2, isCandidate o = true :=
      fun o ho => hc o (hperm.subset ho)
    rcases key objs2 hne2 hc2 with ⟨m2, hm2, hmem2, hmax2⟩
    have hm2o : m2 ∈ objs := hperm.subset hmem2
    have hmo2 : m ∈ objs2 := hperm.symm.subset hmem
    have hEq : m2 = m := hdistinct m2 hm2o m hmem
      (le_antisymm (hmax m2 hm2o) (hmax2 m hmo2))
    rw [hm2, hEq]

/-- Claim C3 witness: two candidate snapshots with distinct stamps. -/
theorem latest_file_selects_max_witness :
    ∃ m, latest_file [S3Obj.mk "copilot/a.json" 1, S3Obj.mk "copilot/b.json" 5] =
        some m ∧
      m ∈ [S3Obj.mk "copilot/a.json" 1, S3Obj.mk "copilot/b.json" 5] ∧
      (∀ o ∈ [S3Obj.mk "copilot/a.json" 1, S3Obj.mk "copilot/b.json" 5],
        o ≠ m → o.lastModified < m.lastModified) ∧
      (∀ objs2, objs2.Perm [S3Obj.mk "copilot/a.json" 1, S3Obj.mk "copilot/b.json" 5] →
        latest_file objs2 = some m) :=
  latest_file_selects_max [S3Obj.mk "copilot/a.json" 1, S3Obj.mk "copilot/b.json" 5]
    (by decide) (by decide) (by decide)

/-- Claim C9 (confirmed): the QnA flow selects the index recorded under the
lexicographically greatest ledger key (`sorted(keys, reverse=True)[0]`), not
anything tied to store modification times; an unreadable or empty ledger
yields `None`, upon which the page stops and never issues an index query. -/
theorem qna_index_selection :
    (∀ e, get_latest_index_from_s3_log (Except.error e) = none) ∧
    get_latest_index_from_s3_log (Except.ok []) = none ∧
    (∀ log : Ledger, log ≠ [] →
      ∃ k, k ∈ log.map Prod.fst ∧ (∀ k2 ∈ log.map Prod.fst, k2 ≤ k) ∧
        get_latest_index_from_s3_log (Except.ok log) = List.lookup k log) ∧
    (∀ bootstrapOk submitted questionNonblank embedOk,
      qna_issues_index_query none bootstrapOk submitted questionNonblank embedOk =
        false) := by
  refine ⟨fun _ => rfl, rfl, ?_, fun _ _ _ _ => rfl⟩
  intro log hlog
  have hkeys : log.map Prod.fst ≠ [] := by
    intro h0
    exact hlog (List.map_eq_nil_iff.mp h0)
  rcases head_insertionSort_rel (fun a b : String => charsLe b.data a.data = true)
      (fun a b => by
        rcases le_total b a with h | h
        · exact Or.inl ((le_iff_charsLe b a).mp h)
        · exact Or.inr ((le_iff_charsLe a b).mp h))
      (fun a b c hab hbc => (le_iff_charsLe c a).mp
        (le_trans ((le_iff_charsLe c b).mpr hbc) ((le_iff_charsLe b a).mpr hab)))
      (log.map Prod.fst) hkeys with ⟨k, hk, hkmem, hkmax⟩
  refine ⟨k, hkmem, ?_, ?_⟩
  · intro k2 hk2
    exact (le_iff_charsLe k2 k).mpr (hkmax k2 hk2)
  · simp only [get_latest_index_from_s3_log, hk]

/-- Claim C9 witness: a two-entry ledger; the lexicographically greatest key
"zzz.json" wins regardless of insertion order. -/
theorem qna_index_selection_witness :
    ∃ k, k ∈ ([("aaa.json", "idx-1"), ("zzz.json", "idx-2")] : Ledger).map Prod.fst ∧
      (∀ k2 ∈ ([("aaa.json", "idx-1"), ("zzz.json", "idx-2")] : Ledger).map Prod.fst,
        k2 ≤ k) ∧
      get_latest_index_from_s3_log
          (Except.ok [("aaa.json", "idx-1"), ("zzz.json", "idx-2")]) =
        List.lookup k [("aaa.json", "idx-1"), ("zzz.json", "idx-2")] :=
  qna_index_selection.2.2.1 [("aaa.json", "idx-1"), ("zzz.json", "idx-2")] (by decide)

/-- Claim C10 (confirmed): the candidate list keeps only keys ending in ".json"
without "ingestion_log"; hence the ledger object is never a candidate, never
selected as latest, and never among the keys deleted by any run of the
handler. -/
theorem ledger_object_never_ingested :
    (∀ objs : List S3Obj, ∀ o ∈ json_files objs,
      pyEnds o.key ".json" = true ∧ pyContains o.key "ingestion_log" = false) ∧
    (∀ (objs : List S3Obj) (o : S3Obj), latest_file objs = some o →
      pyContains o.key "ingestion_log" = false ∧ o.key ≠ log_key) ∧
    (∀ (objs : List S3Obj) (t : Nat), S3Obj.mk log_key t ∉ json_files objs) ∧
    (∀ (ledger : Ledger) (objs : List S3Obj) (index_name : Option String)
        (downloadOk loaderOk : Bool),
      ∀ k ∈ (start_ingestion ledger objs index_name downloadOk loaderOk).deleteCalls,
      pyContains k "ingestion_log" = false ∧ k ≠ log_key) := by
  have hlogkey : pyContains log_key "ingestion_log" = true := by decide
  have part1 : ∀ objs : List S3Obj, ∀ o ∈ json_files objs,
      pyEnds o.key ".json" = true ∧ pyContains o.key "ingestion_log" = false := by
    intro objs o ho
    have hmem : o ∈ objs.filter isCandidate := by
      rw [json_files] at ho
      exact (List.mem_insertionSort _).mp ho
    have hcand : isCandidate o = true := (List.mem_filter.mp hmem).2
    rcases Bool.and_eq_true_iff.mp hcand with ⟨hEnds, hNot⟩
    exact ⟨hEnds, by simpa using hNot⟩
  have part2 : ∀ (objs : List S3Obj) (o : S3Obj), latest_file objs = some o →
      pyContains o.key "ingestion_log" = false ∧ o.key ≠ log_key := by
    intro objs o ho
    have hmem : o ∈ json_files objs := by
      rcases hjf : json_files objs with _ | ⟨h0, t0⟩
      · rw [latest_file, hjf] at ho
        exact absurd ho (by simp)
      · rw [latest_file, hjf] at ho
        have hEq : h0 = o := by simpa using ho
        rw [← hEq]
        exact List.mem_cons_self _ _
    have h1 := part1 objs o hmem
    refine ⟨h1.2, ?_⟩
    intro hk
    rw [hk] at h1
    rw [hlogkey] at h1
    exact Bool.true_eq_false.mp h1.2
  refine ⟨part1, part2, ?_, ?_⟩
  · intro objs t hmem
    have h1 := part1 objs (S3Obj.mk log_key t) hmem
    rw [hlogkey] at h1
    exact Bool.true_eq_false.mp h1.2
  · intro ledger objs index_name downloadOk loaderOk k hk
    rcases h1 : latest_file objs with _ | latest
    · simp [start_ingestion, h1] at hk
    · rcases h2 : List.lookup (basename latest.key) ledger with _ | idx0
      · rcases index_name with _ | idx
        · simp [start_ingestion, h1, h2] at hk
        · have hlatest := part2 objs latest h1
          rcases downloadOk with _ | _ <;> rcases loaderOk with _ | _ <;>
            simp [start_ingestion, h1, h2] at hk <;>
            (rw [hk]; exact hlatest)
      · simp [start_ingestion, h1, h2] at hk

/-- Claim C10 witness: a concrete candidate object admitted by the filter. -/
theorem ledger_object_never_ingested_witness :
    pyEnds (S3Obj.mk "copilot/gcp_inventory_9.json" 2).key ".json" = true ∧
    pyContains (S3Obj.mk "copilot/gcp_inventory_9.json" 2).key "ingestion_log" =
      false :=
  ledger_object_never_ingested.1 [S3Obj.mk "copilot/gcp_inventory_9.json" 2]
    (S3Obj.mk "copilot/gcp_inventory_9.json" 2) (by decide)

end GcpGpt
